import Mathlib

/-!
Verification of the hub-and-spoke orchestrator in `LC.py` (LangGraph
multi-agent star graph).

The embedding mirrors the source:
* `Message` is a role-tagged transcript entry (LangChain messages carry a
  role and content).
* `AgentState` is the `AgentState` TypedDict: `messages` (reduced by
  `add_messages`, i.e. append), `next` (plain last-value channel), and
  `visited` (plain last-value channel).  The `visited` key may be absent
  from the dict, hence `Option (List String)`; the source reads it with
  `state.get("visited", [])`.
* Graph nodes in LangGraph return a partial update dict that the executor
  merges into the state; `NodeUpdate`/`applyUpdate` model this merge
  (`add_messages` appends, the other channels overwrite when the key is
  present).
* The external Generation Service (`llm.invoke`) is a parameter
  `gen : Nat → List Message → Option Message`: it receives the index of the
  call (the service is stateful and opaque) and the prompt list, and either
  returns one message or fails (`none`, a raised exception in the source).
* `hub`, `spoke`, `route_from_hub` are direct translations of the functions
  of the same names in `LC.py`; `runLoop` is the compiled graph's execution
  loop: hub, then the conditional edge keyed on `state["next"]`
  (the mapping `{**{name: name for name in SPECIALISTS}, END: END}` is the
  identity on roster names and on `END`), then the selected spoke, which has
  an unconditional edge back to the hub.  `runLoop` also records the trace
  of Generation Service calls as a list of `Event`s.
-/

/-- A transcript entry: role tag plus text body. -/
structure Message where
  role : String
  content : String
deriving DecidableEq

/-- LangGraph's terminal sentinel `END`. -/
def END : String := "__end__"

/-- LangGraph's entry sentinel `START`. -/
def START : String := "__start__"

/-- The fixed specialist roster of `LC.py` (`SPECIALISTS` dict, in insertion
order: Python dicts iterate in insertion order). -/
def SPECIALISTS : List (String × String) :=
  [("researcher",
    "You are a knowledgeable researcher. Provide relevant facts, data, and background on the topic."),
   ("analyst",
    "You are a data analyst. Examine the information gathered so far and identify key patterns, trends, and deeper implications."),
   ("critic",
    "You are a critical thinker. Identify weaknesses, counterarguments, risks, or missing perspectives in the discussion so far."),
   ("writer",
    "You are a skilled writer. Synthesize all previous contributions into a clear, concise, well-structured response.")]

/-- The system instruction the hub prepends for the final synthesis call. -/
def synthSystemPrompt : String :=
  "You are an orchestrator. All specialist agents have shared their perspectives. Synthesize everything into one final, well-structured answer."

/-- The `AgentState` TypedDict.  `visited = none` models the key being
absent from the state dict. -/
structure AgentState where
  messages : List Message
  next : String
  visited : Option (List String)
deriving DecidableEq

/-- Defensive read `state.get("visited", [])`, the read used by both `hub`
(line 84) and `spoke` (line 120). -/
def getVisited (s : AgentState) : List String := s.visited.getD []

/-- A partial state update returned by a graph node (a Python dict with a
subset of the state's keys).  `messages = []` models the `messages` key
being absent (equivalent under the `add_messages` append reducer);
`next`/`visited` are `none` when the key is absent. -/
structure NodeUpdate where
  messages : List Message
  next : Option String
  visited : Option (List String)
deriving DecidableEq

/-- LangGraph's merge of a node's partial update into the state:
`messages` is reduced by `add_messages` (append); `next` and `visited` are
plain channels, overwritten when the update carries the key. -/
def applyUpdate (s : AgentState) (u : NodeUpdate) : AgentState :=
  { messages := s.messages ++ u.messages,
    next := u.next.getD s.next,
    visited := match u.visited with
               | some v => some v
               | none => s.visited }

/-- The hub's scan (`for name in SPECIALISTS: if name not in visited:
return name`): the first roster identifier not present in `visited`. -/
def firstUnvisited (names : List String) (visited : List String) : Option String :=
  names.find? (fun n => !(visited.contains n))

/-- Translation of `hub` (LC.py lines 78–106), parametrised by the roster it closes over
(`SPECIALISTS` in the source) and by the Generation Service.  Returns the
node's partial update, or `none` when the synthesis `llm.invoke` raises. -/
def hub (roster : List (String × String)) (gen : Nat → List Message → Option Message)
    (calls : Nat) (state : AgentState) : Option NodeUpdate :=
  match firstUnvisited (roster.map Prod.fst) (getVisited state) with
  | some name => some { messages := [], next := some name, visited := none }
  | none =>
    match gen calls ({ role := "system", content := synthSystemPrompt } :: state.messages) with
    | some response => some { messages := [response], next := some END, visited := none }
    | none => none

/-- The node function produced by `make_spoke(name, system_prompt)`
(LC.py lines 110–124), parametrised by the Generation Service.  Returns
the node's partial update, or `none` when `llm.invoke` raises. -/
def spoke (gen : Nat → List Message → Option Message) (name system_prompt : String)
    (calls : Nat) (state : AgentState) : Option NodeUpdate :=
  match gen calls ({ role := "system", content := system_prompt } :: state.messages) with
  | some response =>
      some { messages := [response], next := none,
             visited := some (getVisited state ++ [name]) }
  | none => none

/-- Translation of `route_from_hub` (LC.py lines 128–129): the conditional-edge key. -/
def route_from_hub (state : AgentState) : String := state.next

/-- Look up a roster entry's system prompt by identifier (the graph holds
one spoke node per `(name, prompt)` pair of the roster). -/
def lookupPrompt (roster : List (String × String)) (name : String) : Option String :=
  (roster.find? (fun p => p.1 == name)).map Prod.snd

/-- The hub's routing decision, as specified: `RunWorker id` or
`Finalize`. -/
inductive RoutingDecision where
  | RunWorker (id : String)
  | Finalize
deriving DecidableEq

/-- The decision part of `hub` (LC.py lines 84–92): the scan over the
roster, without the synthesis side effect. -/
def hubDecide (roster : List (String × String)) (state : AgentState) : RoutingDecision :=
  match firstUnvisited (roster.map Prod.fst) (getVisited state) with
  | some name => .RunWorker name
  | none => .Finalize

/-- One observable Generation Service call made during a run. -/
inductive Event where
  | WorkerCall (id : String)
  | SynthesisCall
deriving DecidableEq

/-- How a run can abort.  `GenerationFailure` carries the run's progress
(the orchestration state when the service call raised); `UnknownRoute` is
the conditional edge's `KeyError` branch (unreachable from `hub`'s
outputs); `FuelExhausted` marks exhaustion of the step bound. -/
inductive RunError where
  | GenerationFailure (progress : AgentState)
  | UnknownRoute (route : String) (progress : AgentState)
  | FuelExhausted
deriving DecidableEq

/-- The compiled graph's loop (`app = graph.compile()`, LC.py lines
133–154): run `hub`; follow the conditional edge keyed on
`route_from_hub`; `END` terminates, a roster name dispatches that spoke,
whose fixed edge returns to the hub.  `calls` numbers the Generation
Service invocations; the returned list records the calls in order. -/
def runLoop (roster : List (String × String)) (gen : Nat → List Message → Option Message) :
    Nat → Nat → AgentState → Except RunError (List Event × AgentState)
  | 0, _, _ => .error .FuelExhausted
  | fuel + 1, calls, state =>
    match hub roster gen calls state with
    | none => .error (.GenerationFailure state)
    | some u =>
      let s1 := applyUpdate state u
      if route_from_hub s1 = END then
        .ok ([Event.SynthesisCall], s1)
      else
        match lookupPrompt roster (route_from_hub s1) with
        | none => .error (.UnknownRoute (route_from_hub s1) s1)
        | some prompt =>
          match spoke gen (route_from_hub s1) prompt calls s1 with
          | none => .error (.GenerationFailure s1)
          | some u2 =>
            Except.map (fun p => (Event.WorkerCall (route_from_hub s1) :: p.1, p.2))
              (runLoop roster gen fuel (calls + 1) (applyUpdate s1 u2))

/-- The initial state of `app.invoke` in `__main__` (LC.py lines 162–168):
one user message carrying the task, empty `visited`, empty route. -/
def initialState (task : String) : AgentState :=
  { messages := [{ role := "user", content := task }], next := "", visited := some [] }

/-- A full run of the compiled graph on a task.  `roster.length + 1` hub
cycles suffice: each worker cycle strictly grows `visited` inside the
roster, and the last cycle synthesizes. -/
def runApp (roster : List (String × String)) (gen : Nat → List Message → Option Message)
    (task : String) : Except RunError (List Event × AgentState) :=
  runLoop roster gen (roster.length + 1) 0 (initialState task)

/-- The graph's fixed edges (LC.py lines 140–145): every spoke feeds back
to the hub, and `START` enters at the hub. -/
def graph_edges (roster : List (String × String)) : List (String × String) :=
  roster.map (fun p => (p.1, "hub")) ++ [(START, "hub")]

/-- The conditional-edge mapping out of the hub (LC.py lines 148–152):
`{**{name: name for name in SPECIALISTS}, END: END}`. -/
def hub_route_map (roster : List (String × String)) : List (String × String) :=
  roster.map (fun p => (p.1, p.1)) ++ [(END, END)]

/-- One full hub→spoke transition of the executor on the success path,
exactly as `runLoop` performs it: the hub's update is applied, the
conditional edge selects the spoke, the spoke's update is applied. -/
def WorkerStep (roster : List (String × String)) (gen : Nat → List Message → Option Message)
    (calls : Nat) (s s' : AgentState) : Prop :=
  ∃ u prompt u2,
    hub roster gen calls s = some u ∧
    route_from_hub (applyUpdate s u) ≠ END ∧
    lookupPrompt roster (route_from_hub (applyUpdate s u)) = some prompt ∧
    spoke gen (route_from_hub (applyUpdate s u)) prompt calls (applyUpdate s u) = some u2 ∧
    s' = applyUpdate (applyUpdate s u) u2

/-- The data-model invariant: `visited` lies inside the roster, holds no
identifier twice, and the transcript holds `base` non-worker messages plus
exactly one contribution per visited identifier. -/
def StateInvariant (roster : List (String × String)) (base : Nat) (s : AgentState) : Prop :=
  (∀ x ∈ getVisited s, x ∈ roster.map Prod.fst) ∧
  (getVisited s).Nodup ∧
  s.messages.length = base + (getVisited s).length

/-- A Generation Service that always answers with the same message. -/
def constGen (m : Message) : Nat → List Message → Option Message := fun _ _ => some m

/-! ### Helper lemmas -/

/-- The hub's scan skips a visited block and settles on the first
unvisited identifier. -/
lemma firstUnvisited_skip_visited (done : List String) (n : String) (rest : List String)
    (hn : n ∉ done) : firstUnvisited (done ++ n :: rest) done = some n := by
  unfold firstUnvisited
  rw [List.find?_append]
  have h1 : done.find? (fun x => !(done.contains x)) = none := by
    rw [List.find?_eq_none]
    intro x hx
    simp [List.contains, hx]
  rw [h1]
  simp [List.find?_cons, List.contains, hn]

/-- When every roster identifier is visited, the scan is empty-handed. -/
lemma firstUnvisited_none (names visited : List String)
    (h : ∀ x ∈ names, x ∈ visited) : firstUnvisited names visited = none := by
  unfold firstUnvisited
  rw [List.find?_eq_none]
  intro x hx
  simp [List.contains, h x hx]

/-- Prompt lookup in a roster finds the entry whose identifier is not
among the earlier identifiers. -/
lemma lookupPrompt_skip (pre : List (String × String)) (n p : String)
    (rest : List (String × String)) (hn : n ∉ pre.map Prod.fst) :
    lookupPrompt (pre ++ (n, p) :: rest) n = some p := by
  unfold lookupPrompt
  rw [List.find?_append]
  have h1 : pre.find? (fun q => q.1 == n) = none := by
    rw [List.find?_eq_none]
    intro q hq
    have : q.1 ≠ n := fun h => hn (h ▸ List.mem_map_of_mem Prod.fst hq)
    simp [this]
  rw [h1]
  simp [List.find?_cons]

/-- One successful hub→spoke cycle of the execution loop. -/
lemma runLoop_cycle (roster : List (String × String))
    (gen : Nat → List Message → Option Message) (fuel calls : Nat) (state : AgentState)
    (name prompt : String) (r : Message)
    (hfind : firstUnvisited (roster.map Prod.fst) (getVisited state) = some name)
    (hEND : name ≠ END)
    (hprompt : lookupPrompt roster name = some prompt)
    (hgen : gen calls ({ role := "system", content := prompt } :: state.messages) = some r) :
    runLoop roster gen (fuel + 1) calls state =
      Except.map (fun p => (Event.WorkerCall name :: p.1, p.2))
        (runLoop roster gen fuel (calls + 1)
          { messages := state.messages ++ [r], next := name,
            visited := some (getVisited state ++ [name]) }) := by
  simp only [getVisited] at hfind
  simp [runLoop, hub, hfind, applyUpdate, route_from_hub, hEND, hprompt, spoke, hgen, getVisited]

/-- The finalize cycle: all identifiers visited, synthesis succeeds. -/
lemma runLoop_finalize (roster : List (String × String))
    (gen : Nat → List Message → Option Message) (fuel calls : Nat) (state : AgentState)
    (r : Message)
    (hfind : firstUnvisited (roster.map Prod.fst) (getVisited state) = none)
    (hgen : gen calls ({ role := "system", content := synthSystemPrompt } :: state.messages) = some r) :
    runLoop roster gen (fuel + 1) calls state =
      .ok ([Event.SynthesisCall],
        { messages := state.messages ++ [r], next := END, visited := state.visited }) := by
  simp only [getVisited] at hfind
  simp [runLoop, hub, hfind, hgen, applyUpdate, route_from_hub, getVisited]

/-- A worker cycle whose Generation Service call fails: the run aborts,
surfacing the state as routed (history and visited untouched). -/
lemma runLoop_worker_fail (roster : List (String × String))
    (gen : Nat → List Message → Option Message) (fuel calls : Nat) (state : AgentState)
    (name prompt : String)
    (hfind : firstUnvisited (roster.map Prod.fst) (getVisited state) = some name)
    (hEND : name ≠ END)
    (hprompt : lookupPrompt roster name = some prompt)
    (hgen : gen calls ({ role := "system", content := prompt } :: state.messages) = none) :
    runLoop roster gen (fuel + 1) calls state =
      .error (.GenerationFailure
        { messages := state.messages, next := name, visited := state.visited }) := by
  simp only [getVisited] at hfind
  simp [runLoop, hub, hfind, applyUpdate, route_from_hub, hEND, hprompt, spoke, hgen, getVisited]

/-- A full successful pass of the loop: starting from a state whose
`visited` is exactly the identifiers of the consumed roster prefix `pre`,
a Generation Service that answers every call drives one cycle per
remaining roster entry, in roster order, and then the synthesis. -/
lemma runLoop_pass (gen : Nat → List Message → Option Message)
    (hgen : ∀ i m, (gen i m).isSome) :
    ∀ (rest pre : List (String × String)) (calls : Nat) (state : AgentState),
      ((pre ++ rest).map Prod.fst).Nodup →
      END ∉ (pre ++ rest).map Prod.fst →
      state.visited = some (pre.map Prod.fst) →
      ∃ (mid : List Message) (synth : Message),
        runLoop (pre ++ rest) gen (rest.length + 1) calls state =
          .ok (rest.map (fun q => Event.WorkerCall q.1) ++ [Event.SynthesisCall],
            { messages := state.messages ++ (mid ++ [synth]), next := END,
              visited := some ((pre ++ rest).map Prod.fst) }) ∧
        mid.length = rest.length ∧
        gen (calls + rest.length)
          ({ role := "system", content := synthSystemPrompt } :: (state.messages ++ mid)) =
            some synth := by
  intro rest
  induction rest with
  | nil =>
    intro pre calls state hnd hEND hvis
    have hgv : getVisited state = pre.map Prod.fst := by simp [getVisited, hvis]
    have hfind : firstUnvisited ((pre ++ ([] : List (String × String))).map Prod.fst)
        (getVisited state) = none := by
      rw [hgv]
      apply firstUnvisited_none
      intro x hx
      simpa using hx
    obtain ⟨synth, hsyn⟩ := Option.isSome_iff_exists.mp
      (hgen calls ({ role := "system", content := synthSystemPrompt } :: state.messages))
    refine ⟨[], synth, ?_, by simp, by simpa using hsyn⟩
    rw [runLoop_finalize (pre ++ []) gen ([] : List (String × String)).length calls state synth
      hfind hsyn]
    simp [hvis]
  | cons hd rest' ih =>
    intro pre calls state hnd hEND hvis
    obtain ⟨n, p⟩ := hd
    have hgv : getVisited state = pre.map Prod.fst := by simp [getVisited, hvis]
    have hmaps : (pre ++ (n, p) :: rest').map Prod.fst =
        pre.map Prod.fst ++ n :: rest'.map Prod.fst := by simp
    have hnotin : n ∉ pre.map Prod.fst := by
      rw [hmaps, List.nodup_append] at hnd
      intro hmem
      exact hnd.2.2 hmem (List.mem_cons_self n _)
    have hfind : firstUnvisited ((pre ++ (n, p) :: rest').map Prod.fst)
        (getVisited state) = some n := by
      rw [hmaps, hgv]
      exact firstUnvisited_skip_visited _ _ _ hnotin
    have hnEND : n ≠ END := by
      have hmem : n ∈ (pre ++ (n, p) :: rest').map Prod.fst := by simp
      intro h
      exact hEND (h ▸ hmem)
    have hprompt := lookupPrompt_skip pre n p rest' hnotin
    obtain ⟨r1, hr1⟩ := Option.isSome_iff_exists.mp
      (hgen calls ({ role := "system", content := p } :: state.messages))
    have heqro : (pre ++ [(n, p)]) ++ rest' = pre ++ (n, p) :: rest' := by simp
    obtain ⟨mid, synth, hrun, hlen, hsyn⟩ :=
      ih (pre ++ [(n, p)]) (calls + 1)
        { messages := state.messages ++ [r1], next := n,
          visited := some (getVisited state ++ [n]) }
        (by rw [heqro]; exact hnd) (by rw [heqro]; exact hEND)
        (by rw [hgv]; simp)
    rw [heqro] at hrun
    refine ⟨r1 :: mid, synth, ?_, by simpa using hlen, ?_⟩
    · have hlc : ((n, p) :: rest').length + 1 = rest'.length + 1 + 1 := by simp
      rw [hlc, runLoop_cycle (pre ++ (n, p) :: rest') gen (rest'.length + 1) calls state n p r1
        hfind hnEND hprompt hr1, hrun]
      simp [Except.map]
    · have hidx : calls + ((n, p) :: rest').length = calls + 1 + rest'.length := by
        simp [List.length_cons]
        omega
      rw [hidx]
      simpa using hsyn

/-- A pass that dies at the worker with index `j` in the remaining roster
(0-based): the loop runs `j` successful cycles, then the failing worker's
Generation Service call aborts the run, surfacing the state it had
received — `j` new contributions and `j` new `visited` entries. -/
lemma runLoop_fail_at (gen : Nat → List Message → Option Message) :
    ∀ (j : Nat) (rest pre : List (String × String)) (calls : Nat) (state : AgentState),
      j < rest.length →
      (∀ i m, i < calls + j → (gen i m).isSome) →
      (∀ m, gen (calls + j) m = none) →
      ((pre ++ rest).map Prod.fst).Nodup →
      END ∉ (pre ++ rest).map Prod.fst →
      state.visited = some (pre.map Prod.fst) →
      ∃ s : AgentState,
        runLoop (pre ++ rest) gen (rest.length + 1) calls state =
          .error (.GenerationFailure s) ∧
        s.messages.length = state.messages.length + j ∧
        s.visited = some (pre.map Prod.fst ++ (rest.take j).map Prod.fst) ∧
        (rest.map Prod.fst)[j]? = some s.next := by
  intro j
  induction j with
  | zero =>
    intro rest pre calls state hj hsucc hfail hnd hEND hvis
    match rest, hj with
    | (n, p) :: rest', _ =>
      have hgv : getVisited state = pre.map Prod.fst := by simp [getVisited, hvis]
      have hmaps : (pre ++ (n, p) :: rest').map Prod.fst =
          pre.map Prod.fst ++ n :: rest'.map Prod.fst := by simp
      have hnotin : n ∉ pre.map Prod.fst := by
        rw [hmaps, List.nodup_append] at hnd
        intro hmem
        exact hnd.2.2 hmem (List.mem_cons_self n _)
      have hfind : firstUnvisited ((pre ++ (n, p) :: rest').map Prod.fst)
          (getVisited state) = some n := by
        rw [hmaps, hgv]
        exact firstUnvisited_skip_visited _ _ _ hnotin
      have hnEND : n ≠ END := by
        have hmem : n ∈ (pre ++ (n, p) :: rest').map Prod.fst := by simp
        intro h
        exact hEND (h ▸ hmem)
      have hprompt := lookupPrompt_skip pre n p rest' hnotin
      have hg0 : gen calls ({ role := "system", content := p } :: state.messages) = none := by
        have := hfail ({ role := "system", content := p } :: state.messages)
        simpa using this
      refine ⟨{ messages := state.messages, next := n, visited := state.visited }, ?_, by simp,
        by simp [hvis], by simp⟩
      have hlc : ((n, p) :: rest').length + 1 = rest'.length + 1 + 1 := by simp
      rw [hlc]
      exact runLoop_worker_fail (pre ++ (n, p) :: rest') gen (rest'.length + 1) calls state n p
        hfind hnEND hprompt hg0
  | succ j ih =>
    intro rest pre calls state hj hsucc hfail hnd hEND hvis
    match rest, hj with
    | (n, p) :: rest', hj =>
      have hgv : getVisited state = pre.map Prod.fst := by simp [getVisited, hvis]
      have hmaps : (pre ++ (n, p) :: rest').map Prod.fst =
          pre.map Prod.fst ++ n :: rest'.map Prod.fst := by simp
      have hnotin : n ∉ pre.map Prod.fst := by
        rw [hmaps, List.nodup_append] at hnd
        intro hmem
        exact hnd.2.2 hmem (List.mem_cons_self n _)
      have hfind : firstUnvisited ((pre ++ (n, p) :: rest').map Prod.fst)
          (getVisited state) = some n := by
        rw [hmaps, hgv]
        exact firstUnvisited_skip_visited _ _ _ hnotin
      have hnEND : n ≠ END := by
        have hmem : n ∈ (pre ++ (n, p) :: rest').map Prod.fst := by simp
        intro h
        exact hEND (h ▸ hmem)
      have hprompt := lookupPrompt_skip pre n p rest' hnotin
      obtain ⟨r1, hr1⟩ := Option.isSome_iff_exists.mp
        (hsucc calls ({ role := "system", content := p } :: state.messages) (by omega))
      have heqro : (pre ++ [(n, p)]) ++ rest' = pre ++ (n, p) :: rest' := by simp
      obtain ⟨s, hrun, hmlen, hsvis, hsnext⟩ :=
        ih rest' (pre ++ [(n, p)]) (calls + 1)
          { messages := state.messages ++ [r1], next := n,
            visited := some (getVisited state ++ [n]) }
          (by simpa using hj) (fun i m hi => hsucc i m (by omega))
          (fun m => by have := hfail m; rw [show calls + 1 + j = calls + (j + 1) from by omega];
                       exact this)
          (by rw [heqro]; exact hnd) (by rw [heqro]; exact hEND)
          (by rw [hgv]; simp)
      rw [heqro] at hrun
      refine ⟨s, ?_, by simp at hmlen ⊢; omega, ?_, by simpa using hsnext⟩
      · have hlc : ((n, p) :: rest').length + 1 = rest'.length + 1 + 1 := by simp
        rw [hlc, runLoop_cycle (pre ++ (n, p) :: rest') gen (rest'.length + 1) calls state n p r1
          hfind hnEND hprompt hr1, hrun]
        simp [Except.map]
      · rw [hsvis]
        simp

example : hubDecide SPECIALISTS (initialState "t") = .RunWorker "researcher" := by decide

example :
    runApp SPECIALISTS (fun _ _ => some { role := "assistant", content := "ok" }) "t" =
      .ok ([Event.WorkerCall "researcher", Event.WorkerCall "analyst",
            Event.WorkerCall "critic", Event.WorkerCall "writer", Event.SynthesisCall],
           { messages := [{ role := "user", content := "t" },
                          { role := "assistant", content := "ok" },
                          { role := "assistant", content := "ok" },
                          { role := "assistant", content := "ok" },
                          { role := "assistant", content := "ok" },
                          { role := "assistant", content := "ok" }],
             next := END,
             visited := some ["researcher", "analyst", "critic", "writer"] }) := by
  rfl

/-! ### Claim theorems -/

/-- C1: for every state, the Hub's decision function scans the fixed
worker roster in its configuration-defined order and returns
`RunWorker id` exactly for the first roster identifier not present in
`visited` (every identifier placed earlier in the roster is visited); it
returns `Finalize` exactly when every roster identifier is visited; and a
`RunWorker id` decision is what the `hub` node emits as its `next`
update. -/
theorem hubDecide_first_unvisited (roster : List (String × String)) (state : AgentState) :
    (∀ id, hubDecide roster state = .RunWorker id ↔
      ∃ before after, roster.map Prod.fst = before ++ id :: after ∧
        id ∉ getVisited state ∧ ∀ a ∈ before, a ∈ getVisited state) ∧
    (hubDecide roster state = .Finalize ↔
      ∀ id ∈ roster.map Prod.fst, id ∈ getVisited state) ∧
    (∀ id gen calls, hubDecide roster state = .RunWorker id →
      hub roster gen calls state = some { messages := [], next := some id, visited := none }) := by
  have hrw : ∀ id, hubDecide roster state = .RunWorker id ↔
      firstUnvisited (roster.map Prod.fst) (getVisited state) = some id := by
    intro id
    unfold hubDecide
    cases h : firstUnvisited (roster.map Prod.fst) (getVisited state) with
    | none => simp
    | some n => simp
  have hrwF : hubDecide roster state = .Finalize ↔
      firstUnvisited (roster.map Prod.fst) (getVisited state) = none := by
    unfold hubDecide
    cases h : firstUnvisited (roster.map Prod.fst) (getVisited state) with
    | none => simp
    | some n => simp
  refine ⟨?_, ?_, ?_⟩
  · intro id
    rw [hrw id]
    unfold firstUnvisited
    rw [List.find?_eq_some]
    simp only [List.contains, List.elem_eq_mem, Bool.not_not, Bool.not_eq_true',
      decide_eq_false_iff_not, decide_eq_true_eq]
    constructor
    · rintro ⟨hid, as, bs, heq, hall⟩
      exact ⟨as, bs, heq, hid, hall⟩
    · rintro ⟨as, bs, heq, hid, hall⟩
      exact ⟨hid, as, bs, heq, hall⟩
  · rw [hrwF]
    unfold firstUnvisited
    rw [List.find?_eq_none]
    simp [List.contains]
  · intro id gen calls h
    rw [hrw id] at h
    simp [hub, h]

/-- Witness for C1 at a concrete state: with `researcher` visited, the
decision is `RunWorker analyst` and the hub emits `next := analyst`. -/
theorem hubDecide_first_unvisited_witness :
    hubDecide SPECIALISTS { messages := [], next := "", visited := some ["researcher"] } =
        .RunWorker "analyst" ∧
    hub SPECIALISTS (fun _ _ => none) 0
        { messages := [], next := "", visited := some ["researcher"] } =
      some { messages := [], next := some "analyst", visited := none } := by
  have h := hubDecide_first_unvisited SPECIALISTS
    { messages := [], next := "", visited := some ["researcher"] }
  have hd : hubDecide SPECIALISTS { messages := [], next := "", visited := some ["researcher"] } =
      .RunWorker "analyst" :=
    (h.1 "analyst").mpr ⟨["researcher"], ["critic", "writer"], by decide, by decide, by decide⟩
  exact ⟨hd, h.2.2 "analyst" (fun _ _ => none) 0 hd⟩

/-- C2 evaluation: the source has no roster-emptiness check.  With an
empty roster the run does not reject: the hub immediately makes the
synthesis Generation Service call (the `SynthesisCall` event) and the run
returns a vacuous synthesis over the lone task message. -/
theorem empty_roster_vacuous_synthesis :
    runApp [] (constGen { role := "assistant", content := "vacuous" }) "task" =
      .ok ([Event.SynthesisCall],
        { messages := [{ role := "user", content := "task" },
                       { role := "assistant", content := "vacuous" }],
          next := END, visited := some [] }) := by
  rfl

/-- C3: if the Generation Service fails on the k-th worker invocation
(1 ≤ k ≤ N = 4), the run aborts with `GenerationFailure`; the surfaced
progress state holds exactly 1 + (k − 1) messages (the task message plus
the k − 1 completed contributions) and exactly the k − 1 identifiers of
the first k − 1 roster workers, with the k-th roster identifier as the
pending route — the failing worker contributed nothing. -/
theorem run_aborts_on_worker_failure (k : Nat) (task : String)
    (gen : Nat → List Message → Option Message)
    (hk1 : 1 ≤ k) (hkN : k ≤ SPECIALISTS.length)
    (hsucc : ∀ i m, i < k - 1 → (gen i m).isSome)
    (hfail : ∀ m, gen (k - 1) m = none) :
    ∃ s : AgentState,
      runApp SPECIALISTS gen task = .error (.GenerationFailure s) ∧
      s.messages.length = 1 + (k - 1) ∧
      getVisited s = (SPECIALISTS.take (k - 1)).map Prod.fst ∧
      (SPECIALISTS.map Prod.fst)[k - 1]? = some s.next := by
  have hlen4 : SPECIALISTS.length = 4 := rfl
  rw [hlen4] at hkN
  obtain ⟨s, h1, h2, h3, h4⟩ :=
    runLoop_fail_at gen (k - 1) SPECIALISTS [] 0 (initialState task)
      (by rw [hlen4]; omega)
      (fun i m hi => hsucc i m (by omega))
      (fun m => by simpa using hfail m)
      (by decide) (by decide) rfl
  refine ⟨s, h1, by simpa using h2, ?_, by simpa using h4⟩
  simp only [getVisited, h3]
  simp

/-- Witness for C3 at k = 2: the service answers the first worker call
and fails on the second; the run aborts having recorded one contribution
and one visited identifier. -/
theorem run_aborts_on_worker_failure_witness :
    ∃ s : AgentState,
      runApp SPECIALISTS
          (fun i _ => if i = 0 then some { role := "assistant", content := "a" } else none) "t" =
        .error (.GenerationFailure s) ∧
      s.messages.length = 1 + (2 - 1) ∧
      getVisited s = (SPECIALISTS.take (2 - 1)).map Prod.fst ∧
      (SPECIALISTS.map Prod.fst)[2 - 1]? = some s.next :=
  run_aborts_on_worker_failure 2 "t"
    (fun i _ => if i = 0 then some { role := "assistant", content := "a" } else none)
    (by omega) (by decide)
    (fun i m hi => by
      have hi0 : i = 0 := by omega
      subst hi0
      simp)
    (fun m => by simp)

/-- C4: every executor worker step (Hub decision followed by the selected
Worker's run) preserves the invariant — `visited` stays inside the
roster, stays duplicate-free, and the transcript keeps exactly one
message per visited identifier beyond the `base` initial messages —
and the step adds exactly one roster identifier (previously unvisited)
to `visited` together with exactly one message to `history`. -/
theorem worker_step_preserves_invariant (roster : List (String × String))
    (gen : Nat → List Message → Option Message) (calls base : Nat) (s s' : AgentState)
    (hstep : WorkerStep roster gen calls s s') (hinv : StateInvariant roster base s) :
    StateInvariant roster base s' ∧
    ∃ id r, id ∈ roster.map Prod.fst ∧ id ∉ getVisited s ∧
      getVisited s' = getVisited s ++ [id] ∧ s'.messages = s.messages ++ [r] := by
  obtain ⟨u, prompt, u2, hhub, hne, hlp, hsp, rfl⟩ := hstep
  unfold hub at hhub
  cases hfind : firstUnvisited (roster.map Prod.fst) (getVisited s) with
  | none =>
    rw [hfind] at hhub
    cases hg : gen calls ({ role := "system", content := synthSystemPrompt } :: s.messages) with
    | none => rw [hg] at hhub; cases hhub
    | some r =>
      rw [hg] at hhub
      obtain rfl := Option.some.inj hhub
      exact absurd (by simp [applyUpdate, route_from_hub]) hne
  | some name =>
    rw [hfind] at hhub
    obtain rfl := Option.some.inj hhub
    have hroute : route_from_hub
        (applyUpdate s { messages := [], next := some name, visited := none }) = name := by
      simp [applyUpdate, route_from_hub]
    rw [hroute] at hsp
    have hmem : name ∈ roster.map Prod.fst := List.mem_of_find?_eq_some hfind
    have hnm : name ∉ getVisited s := by
      have hp := List.find?_some hfind
      simp [List.contains] at hp
      exact hp
    unfold spoke at hsp
    cases hg : gen calls ({ role := "system", content := prompt } ::
        (applyUpdate s { messages := [], next := some name, visited := none }).messages) with
    | none => rw [hg] at hsp; cases hsp
    | some r =>
      rw [hg] at hsp
      obtain rfl := Option.some.inj hsp
      have hv' : getVisited (applyUpdate
          (applyUpdate s { messages := [], next := some name, visited := none })
          { messages := [r], next := none,
            visited := some (getVisited (applyUpdate s
              { messages := [], next := some name, visited := none }) ++ [name]) }) =
          getVisited s ++ [name] := by
        simp [applyUpdate, getVisited]
      have hm' : (applyUpdate
          (applyUpdate s { messages := [], next := some name, visited := none })
          { messages := [r], next := none,
            visited := some (getVisited (applyUpdate s
              { messages := [], next := some name, visited := none }) ++ [name]) }).messages =
          s.messages ++ [r] := by
        simp [applyUpdate]
      obtain ⟨hsub, hnd, hcnt⟩ := hinv
      refine ⟨⟨?_, ?_, ?_⟩, name, r, hmem, hnm, hv', hm'⟩
      · intro x hx
        rw [hv'] at hx
        rcases List.mem_append.mp hx with hx | hx
        · exact hsub x hx
        · simp at hx
          subst hx
          exact hmem
      · rw [hv', List.nodup_append]
        exact ⟨hnd, List.nodup_singleton _, fun a ha hb => by
          simp at hb
          subst hb
          exact hnm ha⟩
      · rw [hv', hm']
        simp
        omega

/-- Witness for C4: a concrete worker step from the seeded initial state
preserves the invariant and adds the researcher's single contribution. -/
theorem worker_step_preserves_invariant_witness :
    StateInvariant SPECIALISTS 1
      { messages := [{ role := "user", content := "t" }, { role := "assistant", content := "a" }],
        next := "researcher", visited := some ["researcher"] } ∧
    ∃ id r, id ∈ SPECIALISTS.map Prod.fst ∧ id ∉ getVisited (initialState "t") ∧
      getVisited { messages := [{ role := "user", content := "t" },
                                { role := "assistant", content := "a" }],
                   next := "researcher", visited := some ["researcher"] } =
        getVisited (initialState "t") ++ [id] ∧
      ({ messages := [{ role := "user", content := "t" }, { role := "assistant", content := "a" }],
         next := "researcher", visited := some ["researcher"] } : AgentState).messages =
        (initialState "t").messages ++ [r] := by
  have h := worker_step_preserves_invariant SPECIALISTS
    (constGen { role := "assistant", content := "a" }) 0 1 (initialState "t")
    { messages := [{ role := "user", content := "t" }, { role := "assistant", content := "a" }],
      next := "researcher", visited := some ["researcher"] }
    ⟨{ messages := [], next := some "researcher", visited := none },
     "You are a knowledgeable researcher. Provide relevant facts, data, and background on the topic.",
     { messages := [{ role := "assistant", content := "a" }], next := none,
       visited := some ["researcher"] },
     rfl, by decide, rfl, rfl, rfl⟩
    (by unfold StateInvariant getVisited; decide)
  exact h

/-- C5: after a successful run over the 4-worker roster seeded with one
user message, `visited` equals the full roster, `history` has
1 + N + 1 messages, and the run output — the final message of `history`,
printed by `__main__` — is the synthesis message the Generation Service
returned for the synthesis call over all prior messages. -/
theorem run_success_shape (task : String) (gen : Nat → List Message → Option Message)
    (hgen : ∀ i m, (gen i m).isSome) :
    ∃ (evs : List Event) (final : AgentState) (synth : Message),
      runApp SPECIALISTS gen task = .ok (evs, final) ∧
      final.visited = some (SPECIALISTS.map Prod.fst) ∧
      final.messages.length = 1 + SPECIALISTS.length + 1 ∧
      final.messages.getLast? = some synth ∧
      gen SPECIALISTS.length
        ({ role := "system", content := synthSystemPrompt } :: final.messages.dropLast) =
          some synth := by
  obtain ⟨mid, synth, hrun, hlen, hsyn⟩ :=
    runLoop_pass gen hgen SPECIALISTS [] 0 (initialState task) (by decide) (by decide) rfl
  refine ⟨_, _, synth, hrun, by simp, ?_, ?_, ?_⟩
  · simp [initialState]
    omega
  · rw [show (initialState task).messages ++ (mid ++ [synth]) =
        ((initialState task).messages ++ mid) ++ [synth] from by simp]
    exact List.getLast?_concat _
  · rw [show (initialState task).messages ++ (mid ++ [synth]) =
        ((initialState task).messages ++ mid) ++ [synth] from by simp,
      List.dropLast_concat]
    simpa using hsyn

/-- Witness for C5 with an always-answering Generation Service. -/
theorem run_success_shape_witness :
    ∃ (evs : List Event) (final : AgentState) (synth : Message),
      runApp SPECIALISTS (constGen { role := "assistant", content := "ok" }) "t" =
        .ok (evs, final) ∧
      final.visited = some (SPECIALISTS.map Prod.fst) ∧
      final.messages.length = 1 + SPECIALISTS.length + 1 ∧
      final.messages.getLast? = some synth ∧
      constGen { role := "assistant", content := "ok" } SPECIALISTS.length
        ({ role := "system", content := synthSystemPrompt } :: final.messages.dropLast) =
          some synth :=
  run_success_shape "t" (constGen { role := "assistant", content := "ok" }) (fun _ _ => rfl)

/-- C6: with an always-answering service, the run over the 4-worker
roster performs exactly the four worker invocations, in roster order with
pairwise-distinct identifiers, before the single synthesis call; and in
the graph every worker's only outgoing fixed edge returns to the hub (no
worker dispatches another worker). -/
theorem run_call_sequence (task : String) (gen : Nat → List Message → Option Message)
    (hgen : ∀ i m, (gen i m).isSome) :
    (∃ final : AgentState, runApp SPECIALISTS gen task =
        .ok ([Event.WorkerCall "researcher", Event.WorkerCall "analyst",
              Event.WorkerCall "critic", Event.WorkerCall "writer", Event.SynthesisCall],
             final)) ∧
    (∀ e ∈ graph_edges SPECIALISTS, e.1 ∈ SPECIALISTS.map Prod.fst → e.2 = "hub") := by
  refine ⟨?_, by decide⟩
  obtain ⟨mid, synth, hrun, -, -⟩ :=
    runLoop_pass gen hgen SPECIALISTS [] 0 (initialState task) (by decide) (by decide) rfl
  exact ⟨_, hrun⟩

/-- Witness for C6 with a concrete always-answering service. -/
theorem run_call_sequence_witness :
    (∃ final : AgentState,
        runApp SPECIALISTS (constGen { role := "assistant", content := "c" }) "u" =
          .ok ([Event.WorkerCall "researcher", Event.WorkerCall "analyst",
                Event.WorkerCall "critic", Event.WorkerCall "writer", Event.SynthesisCall],
               final)) ∧
    (∀ e ∈ graph_edges SPECIALISTS, e.1 ∈ SPECIALISTS.map Prod.fst → e.2 = "hub") :=
  run_call_sequence "u" (constGen { role := "assistant", content := "c" }) (fun _ _ => rfl)

/-- C7: one Worker invocation whose Generation Service call (system
instruction prepended to the shared history) returns a single message
appends exactly that message to `history` and adds exactly the worker's
identifier to `visited` — one contribution per invocation, `next`
untouched. -/
theorem spoke_single_contribution (gen : Nat → List Message → Option Message)
    (name prompt : String) (calls : Nat) (state : AgentState) (r : Message)
    (hgen : gen calls ({ role := "system", content := prompt } :: state.messages) = some r) :
    spoke gen name prompt calls state =
      some { messages := [r], next := none, visited := some (getVisited state ++ [name]) } ∧
    applyUpdate state
        { messages := [r], next := none, visited := some (getVisited state ++ [name]) } =
      { messages := state.messages ++ [r], next := state.next,
        visited := some (getVisited state ++ [name]) } := by
  constructor
  · simp [spoke, hgen]
  · simp [applyUpdate]

/-- Witness for C7 at a concrete invocation. -/
theorem spoke_single_contribution_witness :
    spoke (constGen { role := "assistant", content := "c" }) "researcher" "sp" 0
        (initialState "t") =
      some { messages := [{ role := "assistant", content := "c" }], next := none,
             visited := some (getVisited (initialState "t") ++ ["researcher"]) } ∧
    applyUpdate (initialState "t")
        { messages := [{ role := "assistant", content := "c" }], next := none,
          visited := some (getVisited (initialState "t") ++ ["researcher"]) } =
      { messages := (initialState "t").messages ++ [{ role := "assistant", content := "c" }],
        next := (initialState "t").next,
        visited := some (getVisited (initialState "t") ++ ["researcher"]) } :=
  spoke_single_contribution (constGen { role := "assistant", content := "c" })
    "researcher" "sp" 0 (initialState "t") { role := "assistant", content := "c" } rfl

/-- C8: the Hub decision is a pure function of the state's `visited`
content: two decision calls with the same (unmutated) `visited` — in
particular two calls on the very same state — return the same
`RoutingDecision`. -/
theorem hubDecide_idempotent (roster : List (String × String)) (s t : AgentState)
    (h : getVisited s = getVisited t) : hubDecide roster s = hubDecide roster t := by
  unfold hubDecide
  rw [h]

/-- Witness for C8: two states with the same `visited` (one of them with
extra transcript content) get the same decision. -/
theorem hubDecide_idempotent_witness :
    hubDecide SPECIALISTS { messages := [], next := "", visited := some ["researcher"] } =
      hubDecide SPECIALISTS
        { messages := [{ role := "user", content := "t" }], next := "researcher",
          visited := some ["researcher"] } :=
  hubDecide_idempotent SPECIALISTS
    { messages := [], next := "", visited := some ["researcher"] }
    { messages := [{ role := "user", content := "t" }], next := "researcher",
      visited := some ["researcher"] } rfl

/-- C9: the hub node never writes `visited` (its update never carries the
key, so the merged state keeps the old value); on a `RunWorker` decision
it only sets the route, leaving `history` and `visited` unchanged; on
`Finalize` with a successful synthesis call it additionally appends
exactly the one synthesis message (and on a failed one it propagates the
failure without any update). -/
theorem hub_frame_conditions (roster : List (String × String))
    (gen : Nat → List Message → Option Message) (calls : Nat) (state : AgentState) :
    (∀ u, hub roster gen calls state = some u →
        u.visited = none ∧ (applyUpdate state u).visited = state.visited) ∧
    (∀ id, hubDecide roster state = .RunWorker id →
        hub roster gen calls state = some { messages := [], next := some id, visited := none } ∧
        applyUpdate state { messages := [], next := some id, visited := none } =
          { messages := state.messages, next := id, visited := state.visited }) ∧
    (hubDecide roster state = .Finalize →
        (∀ r, gen calls ({ role := "system", content := synthSystemPrompt } :: state.messages) =
            some r →
          hub roster gen calls state =
            some { messages := [r], next := some END, visited := none } ∧
          applyUpdate state { messages := [r], next := some END, visited := none } =
            { messages := state.messages ++ [r], next := END, visited := state.visited }) ∧
        (gen calls ({ role := "system", content := synthSystemPrompt } :: state.messages) =
            none →
          hub roster gen calls state = none)) := by
  cases hfind : firstUnvisited (roster.map Prod.fst) (getVisited state) with
  | some n =>
    refine ⟨?_, ?_, ?_⟩
    · intro u hu
      simp only [hub, hfind] at hu
      obtain rfl := Option.some.inj hu
      exact ⟨rfl, by simp [applyUpdate]⟩
    · intro id hid
      simp only [hubDecide, hfind, RoutingDecision.RunWorker.injEq] at hid
      subst hid
      exact ⟨by simp [hub, hfind], by simp [applyUpdate]⟩
    · intro hfin
      simp [hubDecide, hfind] at hfin
  | none =>
    refine ⟨?_, ?_, ?_⟩
    · intro u hu
      simp only [hub, hfind] at hu
      cases hg : gen calls ({ role := "system", content := synthSystemPrompt } ::
          state.messages) with
      | none => rw [hg] at hu; cases hu
      | some r =>
        rw [hg] at hu
        obtain rfl := Option.some.inj hu
        exact ⟨rfl, by simp [applyUpdate]⟩
    · intro id hid
      simp [hubDecide, hfind] at hid
    · intro hfin
      refine ⟨fun r hr => ⟨by simp [hub, hfind, hr], by simp [applyUpdate]⟩,
        fun hr => by simp [hub, hfind, hr]⟩

/-- Witness for C9: at the seeded initial state the hub only sets the
route to the researcher; transcript and `visited` are untouched. -/
theorem hub_frame_conditions_witness :
    hub SPECIALISTS (fun _ _ => none) 0 (initialState "t") =
        some { messages := [], next := some "researcher", visited := none } ∧
    applyUpdate (initialState "t")
        { messages := [], next := some "researcher", visited := none } =
      { messages := (initialState "t").messages, next := "researcher",
        visited := (initialState "t").visited } :=
  (hub_frame_conditions SPECIALISTS (fun _ _ => none) 0 (initialState "t")).2.1
    "researcher" (by decide)

/-- C10: a state whose `visited` key is absent is handled like an empty
`visited` by both the Hub and a Worker, with no error at the public
interface: decision and node outputs coincide with the empty-`visited`
ones, the Hub routes to the first roster worker, and a Worker's update
carries the singleton `visited` list. -/
theorem missing_visited_defaults (roster : List (String × String))
    (gen : Nat → List Message → Option Message) (calls : Nat) (state : AgentState)
    (h : state.visited = none) :
    hubDecide roster state = hubDecide roster { state with visited := some [] } ∧
    hub roster gen calls state = hub roster gen calls { state with visited := some [] } ∧
    (∀ name prompt, spoke gen name prompt calls state =
        spoke gen name prompt calls { state with visited := some [] }) ∧
    (∀ name prompt rest2, roster = (name, prompt) :: rest2 →
        hubDecide roster state = .RunWorker name) ∧
    (∀ name prompt r,
        gen calls ({ role := "system", content := prompt } :: state.messages) = some r →
        spoke gen name prompt calls state =
          some { messages := [r], next := none, visited := some [name] }) := by
  refine ⟨?_, ?_, ?_, ?_, ?_⟩
  · simp [hubDecide, getVisited, h]
  · simp [hub, getVisited, h]
  · intro name prompt
    simp [spoke, getVisited, h]
  · rintro name prompt rest2 rfl
    simp [hubDecide, firstUnvisited, getVisited, h, List.find?_cons]
  · intro name prompt r hr
    simp [spoke, hr, getVisited, h]

/-- Witness for C10: with the `visited` key absent the hub picks the
researcher and a researcher invocation yields the singleton `visited`. -/
theorem missing_visited_defaults_witness :
    hubDecide SPECIALISTS { messages := [], next := "", visited := none } =
        .RunWorker "researcher" ∧
    spoke (constGen { role := "assistant", content := "w" }) "researcher" "sp" 0
        { messages := [], next := "", visited := none } =
      some { messages := [{ role := "assistant", content := "w" }], next := none,
             visited := some ["researcher"] } := by
  have h := missing_visited_defaults SPECIALISTS
    (constGen { role := "assistant", content := "w" }) 0
    { messages := [], next := "", visited := none } rfl
  exact ⟨h.2.2.2.1 _ _ _ rfl, h.2.2.2.2 "researcher" "sp" _ rfl⟩
